import Mathlib

/-!
Verification of the dependency-merge / local-link classification / temp
manifest synthesis core of `rush generate`
(src/rush/rush/src/actions/GenerateAction.ts, `GenerateAction.onExecute`,
lines 103-191).

JS objects used as string-keyed maps are embedded as association lists
(`List (String × String)`) in key insertion order; JS property assignment
`m[k] = v` (overwrite in place if the key exists, else append) is `upsert`.
Fields that may be absent on a JS object are `Option`s; the truthiness test
`if (obj.field)` on an object-valued field is `Option.isSome` (an empty JS
object is truthy).
-/

/-- Association-list update with JS object-assignment semantics: if the key
is present, its value is replaced in place (key keeps its position); else
the pair is appended at the end. -/
def upsert (m : List (String × String)) (k v : String) : List (String × String) :=
  match m with
  | [] => [(k, v)]
  | (k', v') :: rest => if k' = k then (k, v) :: rest else (k', v') :: upsert rest k v

/-- The fields of a project's own package.json that `onExecute` reads:
`version` (line 169), `dependencies` (151-155), `devDependencies` (145-149),
`optionalDependencies` (132-133). -/
structure PackageJson where
  name : String
  version : String
  dependencies : Option (List (String × String))
  devDependencies : Option (List (String × String))
  optionalDependencies : Option (List (String × String))
  deriving DecidableEq, Repr

/-- A `RushConfigProject` entry of rush.json as `onExecute` uses it:
`packageName` keys `getProjectByName` (line 162), `packageJson` is the
project's manifest, `tempProjectName` the synthetic name (line 115),
`cyclicDependencyProjects` the exemption set (line 166). -/
structure RushConfigProject where
  packageName : String
  packageJson : PackageJson
  tempProjectName : String
  cyclicDependencyProjects : List String
  deriving DecidableEq, Repr

/-- The synthetic per-project manifest written to
common/temp_modules/<tempProjectName>/package.json (lines 124-186).
`rushDependencies` is `none` until the first local-link decision creates the
field (lines 173-175); `optionalDependencies` is `none` unless the source
manifest has the field (lines 132-134). -/
structure TempPackageJson where
  name : String
  version : String
  isPrivate : Bool
  dependencies : List (String × String)
  optionalDependencies : Option (List (String × String))
  rushDependencies : Option (List (String × String))
  deriving DecidableEq, Repr

/-- The aggregate common/package.json (lines 103-109, 120): fields in the
insertion order of the object literal. -/
structure CommonPackageJson where
  dependencies : List (String × String)
  description : String
  name : String
  isPrivate : Bool
  version : String
  deriving DecidableEq, Repr

/-- Modelled from the spec: the Version Compatibility Check (§4.1) is the
external `semver` library's `satisfies(version, range)`, not code of this
repository.  A version is a dotted numeric triple. -/
def splitDots : List Char → List (List Char)
  | [] => [[]]
  | c :: rest =>
    let r := splitDots rest
    if c = '.' then [] :: r
    else
      match r with
      | [] => [[c]]
      | g :: gs => (c :: g) :: gs

/-- Modelled from the spec: decimal digits to a number; empty or non-digit
input is malformed. -/
def digitsToNat (cs : List Char) : Option Nat :=
  if cs.isEmpty then none
  else if cs.all Char.isDigit then some (cs.foldl (fun n c => n * 10 + (c.toNat - 48)) 0)
  else none

/-- Modelled from the spec: parse a concrete version `major.minor.patch`. -/
def parseVersionL (cs : List Char) : Option (Nat × Nat × Nat) :=
  match splitDots cs with
  | [a, b, c] =>
    match digitsToNat a, digitsToNat b, digitsToNat c with
    | some x, some y, some z => some (x, y, z)
    | _, _, _ => none
  | _ => none

/-- Modelled from the spec: the range forms of standard semantic-version
range semantics that the model supports (exact, caret, tilde, lower bound,
wildcard; §4.1). -/
inductive SemverRange where
  | exact : Nat × Nat × Nat → SemverRange
  | caret : Nat × Nat × Nat → SemverRange
  | tilde : Nat × Nat × Nat → SemverRange
  | geq : Nat × Nat × Nat → SemverRange
  | any : SemverRange
  deriving DecidableEq, Repr

/-- Modelled from the spec: parse a version specifier; anything else is a
malformed specifier (§4.1, §7 MalformedSpecifier). -/
def parseRangeL : List Char → Option SemverRange
  | ['*'] => some SemverRange.any
  | '^' :: rest => (parseVersionL rest).map SemverRange.caret
  | '~' :: rest => (parseVersionL rest).map SemverRange.tilde
  | '>' :: '=' :: rest => (parseVersionL rest).map SemverRange.geq
  | cs => (parseVersionL cs).map SemverRange.exact

def parseVersion (s : String) : Option (Nat × Nat × Nat) :=
  parseVersionL s.toList

def parseRange (s : String) : Option SemverRange :=
  parseRangeL s.toList

/-- Lexicographic order on version triples. -/
def vLt : Nat × Nat × Nat → Nat × Nat × Nat → Bool
  | (a1, a2, a3), (b1, b2, b3) =>
    if a1 < b1 then true
    else if b1 < a1 then false
    else if a2 < b2 then true
    else if b2 < a2 then false
    else decide (a3 < b3)

/-- Exclusive upper bound of a caret range: next major, or next minor when
the major is 0, or next patch when major and minor are 0. -/
def caretUpper : Nat × Nat × Nat → Nat × Nat × Nat
  | (ma, mi, pa) =>
    if ma > 0 then (ma + 1, 0, 0)
    else if mi > 0 then (0, mi + 1, 0)
    else (0, mi, pa + 1)

/-- Modelled from the spec: membership of a concrete version in a parsed
range. -/
def rangeTest (r : SemverRange) (v : Nat × Nat × Nat) : Bool :=
  match r with
  | SemverRange.any => true
  | SemverRange.exact w => decide (v = w)
  | SemverRange.geq w => !(vLt v w)
  | SemverRange.caret w => !(vLt v w) && vLt v (caretUpper w)
  | SemverRange.tilde w => !(vLt v w) && vLt v (w.1, w.2.1 + 1, 0)

/-- Modelled from the spec: `isSatisfied(concreteVersion, specifier)`
(§4.1).  A malformed specifier or version is treated as non-satisfying
rather than raising. -/
def semverSatisfies (version range : String) : Bool :=
  match parseRange range with
  | none => false
  | some r =>
    match parseVersion version with
    | none => false
    | some v => rangeTest r v

/-- `getProjectByName` (line 162): look a package name up among the
workspace projects. -/
def getProjectByName (projects : List RushConfigProject) (name : String) :
    Option RushConfigProject :=
  projects.find? fun p => p.packageName == name

/-- One iteration of the classification loop (lines 157-184) over the state
(`tempPackageJson.dependencies`, `tempPackageJson.rushDependencies`):
a pair whose name matches a workspace project, is not cyclically exempted,
and whose specifier the local version satisfies goes into
`rushDependencies` (created on first use); every other pair goes into
`dependencies`. -/
def classifyStep (projects : List RushConfigProject) (rushProject : RushConfigProject)
    (satisfies : String → String → Bool)
    (st : List (String × String) × Option (List (String × String)))
    (pair : String × String) :
    List (String × String) × Option (List (String × String)) :=
  match getProjectByName projects pair.1 with
  | some localProject =>
    if rushProject.cyclicDependencyProjects.contains pair.1 then
      (upsert st.1 pair.1 pair.2, st.2)
    else if satisfies localProject.packageJson.version pair.2 then
      (st.1, some (upsert (st.2.getD []) pair.1 pair.2))
    else
      (upsert st.1 pair.1 pair.2, st.2)
  | none => (upsert st.1 pair.1 pair.2, st.2)

/-- The merge of lines 145-155: iterate `devDependencies` first, then
`dependencies`, collecting (packageName, packageVersion) pairs.  The list
may repeat a name; the source relies on later assignments overwriting
earlier ones per map. -/
def mergePairs (packageJson : PackageJson) : List (String × String) :=
  packageJson.devDependencies.getD [] ++ packageJson.dependencies.getD []

/-- Whether the loop body would record the pair as a local link (the
combined conditions of lines 163, 166 and 170). -/
def isLocalLink (projects : List RushConfigProject) (rushProject : RushConfigProject)
    (satisfies : String → String → Bool) (pair : String × String) : Bool :=
  match getProjectByName projects pair.1 with
  | some localProject =>
    !(rushProject.cyclicDependencyProjects.contains pair.1) &&
      satisfies localProject.packageJson.version pair.2
  | none => false

/-- The synthetic manifest one loop iteration of lines 112-186 builds for a
project (pure part: the object that `JsonFile.saveJsonFile` writes). -/
def makeTempPackageJson (projects : List RushConfigProject)
    (satisfies : String → String → Bool) (rushProject : RushConfigProject) :
    TempPackageJson :=
  let packageJson := rushProject.packageJson
  let st := (mergePairs packageJson).foldl
    (classifyStep projects rushProject satisfies) ([], none)
  { name := rushProject.tempProjectName
    version := "0.0.0"
    isPrivate := true
    dependencies := st.1
    optionalDependencies := packageJson.optionalDependencies
    rushDependencies := st.2 }

/-- Lines 103-191 (pure part): synthesize one temp manifest per project and
the aggregate common/package.json, whose `dependencies` maps each
`tempProjectName` to its file-path reference (line 120).  This function
gives the manifest contents only; the abort path of `fsx.mkdirSync` at
line 118 (folder-exists error on a duplicate `tempProjectName`) is
modelled by `synthesizeRun` below, which agrees with this function
whenever the `tempProjectName`s are distinct. -/
def synthesize (satisfies : String → String → Bool)
    (projects : List RushConfigProject) :
    List TempPackageJson × CommonPackageJson :=
  let common0 : CommonPackageJson :=
    { dependencies := []
      description := "Temporary file generated by the Rush tool"
      name := "rush-common"
      isPrivate := true
      version := "0.0.0" }
  projects.foldl
    (fun acc proj =>
      (acc.1 ++ [makeTempPackageJson projects satisfies proj],
       { acc.2 with
          dependencies := upsert acc.2.dependencies proj.tempProjectName
            ("file:./temp_modules/" ++ proj.tempProjectName) }))
    ([], common0)

/-- The per-project loop of lines 112-187 with its filesystem effects
modelled.  common/temp_modules starts clean (lines 86-101), so `created`
holds the folders made so far; `fsx.mkdirSync` (line 118) throws EEXIST
when the folder for `tempProjectName` already exists, aborting the run at
that point; a project's manifest is written by `JsonFile.saveJsonFile`
(line 186) at the end of its iteration, so on an abort the manifests of
the earlier projects are already on disk.  The error carries that partial
set; the aggregate common/package.json is written only after the loop
(line 191), so it exists only on success. -/
def synthesizeRunGo (all : List RushConfigProject)
    (satisfies : String → String → Bool)
    (created : List String) (written : List TempPackageJson)
    (common : CommonPackageJson) :
    List RushConfigProject →
      Except (String × List TempPackageJson) (List TempPackageJson × CommonPackageJson)
  | [] => Except.ok (written, common)
  | proj :: rest =>
    if created.contains proj.tempProjectName then
      Except.error ("EEXIST: " ++ proj.tempProjectName, written)
    else
      synthesizeRunGo all satisfies (created ++ [proj.tempProjectName])
        (written ++ [makeTempPackageJson all satisfies proj])
        { common with
            dependencies := upsert common.dependencies proj.tempProjectName
              ("file:./temp_modules/" ++ proj.tempProjectName) } rest

/-- Lines 100-191 with the `fsx.mkdirSync` abort path: run the per-project
loop on a clean temp_modules folder and the empty aggregate manifest of
lines 103-109. -/
def synthesizeRun (satisfies : String → String → Bool)
    (projects : List RushConfigProject) :
    Except (String × List TempPackageJson) (List TempPackageJson × CommonPackageJson) :=
  synthesizeRunGo projects satisfies [] []
    { dependencies := []
      description := "Temporary file generated by the Rush tool"
      name := "rush-common"
      isPrivate := true
      version := "0.0.0" } projects

/-- Whether a run of the synthesizer completed without aborting. -/
def runSucceeded
    (r : Except (String × List TempPackageJson) (List TempPackageJson × CommonPackageJson)) :
    Bool :=
  match r with
  | Except.ok _ => true
  | Except.error _ => false

/-- The synthetic manifests on disk after a run, aborted or not: the
partial set written before the abort, or all of them on success. -/
def writtenManifests
    (r : Except (String × List TempPackageJson) (List TempPackageJson × CommonPackageJson)) :
    List TempPackageJson :=
  match r with
  | Except.ok out => out.1
  | Except.error e => e.2

/-- The warnings the classification loop (lines 157-184) emits for a
project: the loop body contains no warning, logging or error-collection
statement, so none are ever produced. -/
def classificationWarnings (_projects : List RushConfigProject)
    (_rushProject : RushConfigProject)
    (_satisfies : String → String → Bool) : List String :=
  []

/-- Serialize an association list as a JSON object body. -/
def serializeEntries (m : List (String × String)) : String :=
  String.intercalate "," (m.map fun kv => "\"" ++ kv.1 ++ "\":\"" ++ kv.2 ++ "\"")

def serializeMap (m : List (String × String)) : String :=
  "\x7b" ++ serializeEntries m ++ "\x7d"

/-- Serialize a temp manifest with the key ordering in which `onExecute`
inserts the fields (object literal of lines 124-129, then
`optionalDependencies`, then `rushDependencies`). -/
def serializeTemp (t : TempPackageJson) : String :=
  "\x7b\"name\":\"" ++ t.name ++ "\",\"version\":\"" ++ t.version ++
  "\",\"private\":" ++ (if t.isPrivate then "true" else "false") ++
  ",\"dependencies\":" ++ serializeMap t.dependencies ++
  (match t.optionalDependencies with
   | none => ""
   | some m => ",\"optionalDependencies\":" ++ serializeMap m) ++
  (match t.rushDependencies with
   | none => ""
   | some m => ",\"rushDependencies\":" ++ serializeMap m) ++ "\x7d"

/-- Serialize the aggregate manifest with the key ordering of the object
literal at lines 103-109. -/
def serializeCommon (c : CommonPackageJson) : String :=
  "\x7b\"dependencies\":" ++ serializeMap c.dependencies ++
  ",\"description\":\"" ++ c.description ++ "\",\"name\":\"" ++ c.name ++
  "\",\"private\":" ++ (if c.isPrivate then "true" else "false") ++
  ",\"version\":\"" ++ c.version ++ "\"\x7d"

/-- The serialized bytes of a whole synthesis run: one document per temp
manifest plus the aggregate document. -/
def serializeSynthesis (satisfies : String → String → Bool)
    (projects : List RushConfigProject) : List String × String :=
  let out := synthesize satisfies projects
  (out.1.map serializeTemp, serializeCommon out.2)

/-! Helper lemmas about `upsert` and the classification fold. -/

theorem upsert_mem (m : List (String × String)) (k v : String) :
    (k, v) ∈ upsert m k v := by
  induction m with
  | nil => exact List.mem_singleton_self _
  | cons kv rest ih =>
    obtain ⟨k', v'⟩ := kv
    unfold upsert
    by_cases h : k' = k
    · simp [h]
    · simp [h, ih]

theorem classifyStep_not_local (projects : List RushConfigProject)
    (rushProject : RushConfigProject) (satisfies : String → String → Bool)
    (st : List (String × String) × Option (List (String × String)))
    (pair : String × String)
    (h : isLocalLink projects rushProject satisfies pair = false) :
    classifyStep projects rushProject satisfies st pair
      = (upsert st.1 pair.1 pair.2, st.2) := by
  unfold isLocalLink at h
  unfold classifyStep
  cases hfind : getProjectByName projects pair.1 with
  | none => simp [hfind]
  | some lp =>
    rw [hfind] at h
    simp at h
    by_cases hmem : pair.1 ∈ rushProject.cyclicDependencyProjects
    · simp [hfind, hmem]
    · have hs : satisfies lp.packageJson.version pair.2 = false := h hmem
      simp [hfind, hmem, hs]

theorem foldl_classify_snd_none (projects : List RushConfigProject)
    (rushProject : RushConfigProject) (satisfies : String → String → Bool) :
    ∀ (pairs : List (String × String)) (deps : List (String × String)),
      (∀ pair ∈ pairs, isLocalLink projects rushProject satisfies pair = false) →
      (pairs.foldl (classifyStep projects rushProject satisfies) (deps, none)).2 = none := by
  intro pairs
  induction pairs with
  | nil => intro deps _; rfl
  | cons p rest ih =>
    intro deps h
    rw [List.foldl_cons,
      classifyStep_not_local projects rushProject satisfies _ p
        (h p (List.mem_cons_self _ _))]
    exact ih _ fun q hq => h q (List.mem_cons_of_mem _ hq)

theorem synthesizeRunGo_ok (all : List RushConfigProject)
    (satisfies : String → String → Bool) :
    ∀ (xs : List RushConfigProject) (created : List String)
      (written : List TempPackageJson) (common : CommonPackageJson),
      (xs.map fun q => q.tempProjectName).Nodup →
      (∀ q ∈ xs, q.tempProjectName ∉ created) →
      ∃ common2,
        synthesizeRunGo all satisfies created written common xs
          = Except.ok (written ++ xs.map (makeTempPackageJson all satisfies), common2) := by
  intro xs
  induction xs with
  | nil =>
    intro created written common _ _
    exact ⟨common, by simp [synthesizeRunGo]⟩
  | cons proj rest ih =>
    intro created written common hnodup hnew
    have hnodup' : (∀ x ∈ rest, ¬x.tempProjectName = proj.tempProjectName) ∧
        (rest.map fun q => q.tempProjectName).Nodup := by simpa using hnodup
    have hni : proj.tempProjectName ∉ created := hnew proj (List.mem_cons_self _ _)
    have hrest : ∀ q ∈ rest, q.tempProjectName ∉ created ++ [proj.tempProjectName] := by
      intro q hq
      simp only [List.mem_append, List.mem_singleton, not_or]
      exact ⟨hnew q (List.mem_cons_of_mem _ hq), hnodup'.1 q hq⟩
    obtain ⟨c2, hc2⟩ := ih (created ++ [proj.tempProjectName])
      (written ++ [makeTempPackageJson all satisfies proj])
      { common with
          dependencies := upsert common.dependencies proj.tempProjectName
            ("file:./temp_modules/" ++ proj.tempProjectName) }
      hnodup'.2 hrest
    exact ⟨c2, by simp [synthesizeRunGo, hni, hc2]⟩

theorem synthesizeRunGo_error (all : List RushConfigProject)
    (satisfies : String → String → Bool) :
    ∀ (pre : List RushConfigProject) (p : RushConfigProject)
      (rest : List RushConfigProject) (created : List String)
      (written : List TempPackageJson) (common : CommonPackageJson),
      (pre.map fun q => q.tempProjectName).Nodup →
      (∀ q ∈ pre, q.tempProjectName ∉ created) →
      p.tempProjectName ∈ created ++ pre.map (fun q => q.tempProjectName) →
      synthesizeRunGo all satisfies created written common (pre ++ p :: rest)
        = Except.error ("EEXIST: " ++ p.tempProjectName,
            written ++ pre.map (makeTempPackageJson all satisfies)) := by
  intro pre
  induction pre with
  | nil =>
    intro p rest created written common _ _ hp
    have hmem : p.tempProjectName ∈ created := by simpa using hp
    simp [synthesizeRunGo, hmem]
  | cons q pre' ih =>
    intro p rest created written common hnodup hnew hp
    have hnodup' : (∀ x ∈ pre', ¬x.tempProjectName = q.tempProjectName) ∧
        (pre'.map fun r => r.tempProjectName).Nodup := by simpa using hnodup
    have hqni : q.tempProjectName ∉ created := hnew q (List.mem_cons_self _ _)
    have hpre' : ∀ r ∈ pre', r.tempProjectName ∉ created ++ [q.tempProjectName] := by
      intro r hr
      simp only [List.mem_append, List.mem_singleton, not_or]
      exact ⟨hnew r (List.mem_cons_of_mem _ hr), hnodup'.1 r hr⟩
    have hp' : p.tempProjectName
        ∈ (created ++ [q.tempProjectName]) ++ pre'.map (fun r => r.tempProjectName) := by
      simp only [List.mem_append, List.mem_singleton] at hp ⊢
      simp only [List.map_cons, List.mem_cons] at hp
      tauto
    have hrec := ih p rest (created ++ [q.tempProjectName])
      (written ++ [makeTempPackageJson all satisfies q])
      { common with
          dependencies := upsert common.dependencies q.tempProjectName
            ("file:./temp_modules/" ++ q.tempProjectName) }
      hnodup'.2 hpre' hp'
    have hstep : synthesizeRunGo all satisfies created written common
          ((q :: pre') ++ p :: rest)
        = synthesizeRunGo all satisfies (created ++ [q.tempProjectName])
            (written ++ [makeTempPackageJson all satisfies q])
            { common with
                dependencies := upsert common.dependencies q.tempProjectName
                  ("file:./temp_modules/" ++ q.tempProjectName) }
            (pre' ++ p :: rest) := by
      simp [synthesizeRunGo, hqni]
    rw [hstep, hrec]
    simp

/-! Concrete example inputs used by witnesses and counterexamples. -/

/-- Workspace project `utils` at concrete version 1.2.0. -/
def utilsProj : RushConfigProject :=
  { packageName := "utils"
    packageJson :=
      { name := "utils", version := "1.2.0", dependencies := none,
        devDependencies := none, optionalDependencies := none }
    tempProjectName := "rush-utils"
    cyclicDependencyProjects := [] }

/-- Project declaring `utils` both as a devDependency (`^1.0.0`, locally
satisfiable) and as a regular dependency (`^2.0.0`, not satisfiable by
utils 1.2.0). -/
def webProj : RushConfigProject :=
  { packageName := "web"
    packageJson :=
      { name := "web", version := "1.0.0",
        dependencies := some [("utils", "^2.0.0")],
        devDependencies := some [("utils", "^1.0.0")],
        optionalDependencies := none }
    tempProjectName := "rush-web"
    cyclicDependencyProjects := [] }

/-- Project declaring only a locally satisfiable runtime dependency on
`utils`. -/
def simpleWebProj : RushConfigProject :=
  { packageName := "simple-web"
    packageJson :=
      { name := "simple-web", version := "1.0.0",
        dependencies := some [("utils", "^1.0.0")],
        devDependencies := none, optionalDependencies := none }
    tempProjectName := "rush-simple-web"
    cyclicDependencyProjects := [] }

/-- Scenario D: projects `a` and `b` depend on each other and list each
other in `cyclicDependencyProjects`. -/
def aProj : RushConfigProject :=
  { packageName := "a"
    packageJson :=
      { name := "a", version := "1.0.0",
        dependencies := some [("b", "^1.0.0")],
        devDependencies := none, optionalDependencies := none }
    tempProjectName := "rush-a"
    cyclicDependencyProjects := ["b"] }

def bProj : RushConfigProject :=
  { packageName := "b"
    packageJson :=
      { name := "b", version := "1.0.0",
        dependencies := some [("a", "^1.0.0")],
        devDependencies := none, optionalDependencies := none }
    tempProjectName := "rush-b"
    cyclicDependencyProjects := ["a"] }

/-- Two distinct projects that resolve to the same synthetic name. -/
def wsSharedA : RushConfigProject :=
  { packageName := "alpha"
    packageJson :=
      { name := "alpha", version := "1.0.0", dependencies := none,
        devDependencies := none, optionalDependencies := none }
    tempProjectName := "ws-shared"
    cyclicDependencyProjects := [] }

def wsSharedB : RushConfigProject :=
  { packageName := "beta"
    packageJson :=
      { name := "beta", version := "1.0.0", dependencies := none,
        devDependencies := none, optionalDependencies := none }
    tempProjectName := "ws-shared"
    cyclicDependencyProjects := [] }

/-- Project whose merged dependency set mentions its own synthetic name. -/
def selfNameProj : RushConfigProject :=
  { packageName := "self"
    packageJson :=
      { name := "self", version := "1.0.0",
        dependencies := some [("rush-self", "^1.0.0")],
        devDependencies := none, optionalDependencies := none }
    tempProjectName := "rush-self"
    cyclicDependencyProjects := [] }

/-- Project whose dependency on a workspace package carries an unparseable
specifier. -/
def appProj : RushConfigProject :=
  { packageName := "app"
    packageJson :=
      { name := "app", version := "1.0.0",
        dependencies := some [("utils", "not semver")],
        devDependencies := none, optionalDependencies := none }
    tempProjectName := "rush-app"
    cyclicDependencyProjects := [] }

/-- Project with a present but empty `optionalDependencies` mapping. -/
def emptyOptProj : RushConfigProject :=
  { packageName := "empty-opt"
    packageJson :=
      { name := "empty-opt", version := "1.0.0", dependencies := none,
        devDependencies := none, optionalDependencies := some [] }
    tempProjectName := "rush-empty-opt"
    cyclicDependencyProjects := [] }

/-- Project with only external dependencies (no workspace match). -/
def siteProj : RushConfigProject :=
  { packageName := "site"
    packageJson :=
      { name := "site", version := "1.0.0",
        dependencies := some [("lodash", "^4.0.0")],
        devDependencies := some [("mocha", "^2.0.0")],
        optionalDependencies := none }
    tempProjectName := "rush-site"
    cyclicDependencyProjects := [] }

/-! The claims. -/

/-- Claim C1: the claim states that a name declared in both `dependencies`
and `devDependencies` only ever appears in the output with the runtime
specifier.  Evaluating the code at the failing input: with utils 1.2.0 in
the workspace and `web` declaring utils as `^1.0.0` in devDependencies and
`^2.0.0` in dependencies, the dev pair is classified as a local link and
the runtime pair as external, so the synthesized manifest records the
devDependencies specifier `^1.0.0` in `rushDependencies` — the loop pushes
both pairs and later assignments only overwrite within the same map. -/
theorem dev_specifier_survives_in_output :
    webProj.packageJson.devDependencies = some [("utils", "^1.0.0")] ∧
    webProj.packageJson.dependencies = some [("utils", "^2.0.0")] ∧
    (makeTempPackageJson [webProj, utilsProj] semverSatisfies webProj).rushDependencies
      = some [("utils", "^1.0.0")] ∧
    (makeTempPackageJson [webProj, utilsProj] semverSatisfies webProj).dependencies
      = [("utils", "^2.0.0")] := by decide

/-- Claim C2: the claim states that each merged package name appears in
exactly one of `dependencies` and `rushDependencies`.  Evaluating the code
at the failing input: the name `utils` ends up in both maps of the same
synthesized manifest when its dev pair classifies local and its runtime
pair classifies external. -/
theorem name_in_both_maps :
    ((makeTempPackageJson [webProj, utilsProj] semverSatisfies webProj).dependencies.map
      Prod.fst) = ["utils"] ∧
    (((makeTempPackageJson [webProj, utilsProj] semverSatisfies webProj).rushDependencies.getD
      []).map Prod.fst) = ["utils"] := by decide

/-- Claim C3 counterexample: with the `fsx.mkdirSync` abort path modelled,
two distinct projects sharing the synthetic name `ws-shared` do abort the
run (EEXIST at the second project's mkdir, line 118), but not with zero
manifests: the first project's manifest has already been written, so a
partial set is produced; and a project whose merged dependencies contain
its own synthetic name causes no failure at all. -/
theorem duplicate_synthetic_names_partial_output :
    wsSharedA.tempProjectName = wsSharedB.tempProjectName ∧
    wsSharedA.packageName ≠ wsSharedB.packageName ∧
    synthesizeRun semverSatisfies [wsSharedA, wsSharedB]
      = Except.error ("EEXIST: ws-shared",
          [makeTempPackageJson [wsSharedA, wsSharedB] semverSatisfies wsSharedA]) ∧
    selfNameProj.packageJson.dependencies = some [("rush-self", "^1.0.0")] ∧
    selfNameProj.tempProjectName = "rush-self" ∧
    runSucceeded (synthesizeRun semverSatisfies [selfNameProj]) = true := by
  exact ⟨rfl, by decide, by rfl, rfl, rfl, by rfl⟩

/-- Claim C3 (amended): on a duplicate `tempProjectName` synthesis does
fail — the second `mkdirSync` throws EEXIST — but only after emitting the
manifests of every project before the first duplicate, a partial (not
empty) set, and no `ConfigurationError` check exists; when the
`tempProjectName`s are distinct the run never fails and writes one
manifest per project, so in particular a merged dependency on the
project's own synthetic name causes no failure. -/
theorem synthesizeRun_duplicate_behavior (satisfies : String → String → Bool) :
    (∀ (pre : List RushConfigProject) (p : RushConfigProject)
      (rest : List RushConfigProject),
      (pre.map fun q => q.tempProjectName).Nodup →
      p.tempProjectName ∈ pre.map (fun q => q.tempProjectName) →
      synthesizeRun satisfies (pre ++ p :: rest)
        = Except.error ("EEXIST: " ++ p.tempProjectName,
            pre.map (makeTempPackageJson (pre ++ p :: rest) satisfies))) ∧
    (∀ projects : List RushConfigProject,
      (projects.map fun q => q.tempProjectName).Nodup →
      runSucceeded (synthesizeRun satisfies projects) = true ∧
      writtenManifests (synthesizeRun satisfies projects)
        = projects.map (makeTempPackageJson projects satisfies)) := by
  constructor
  · intro pre p rest hnodup hp
    have h := synthesizeRunGo_error (pre ++ p :: rest) satisfies pre p rest [] []
      { dependencies := []
        description := "Temporary file generated by the Rush tool"
        name := "rush-common"
        isPrivate := true
        version := "0.0.0" }
      hnodup (by simp) (by simpa using hp)
    simpa [synthesizeRun] using h
  · intro projects hnodup
    obtain ⟨c2, hc2⟩ := synthesizeRunGo_ok projects satisfies projects [] []
      { dependencies := []
        description := "Temporary file generated by the Rush tool"
        name := "rush-common"
        isPrivate := true
        version := "0.0.0" }
      hnodup (by simp)
    constructor
    · simp [synthesizeRun, runSucceeded, hc2]
    · simp [synthesizeRun, writtenManifests, hc2]

/-- Claim C3 witness: [wsSharedA] is duplicate-free and wsSharedB repeats
its synthetic name, so the run aborts with exactly wsSharedA's manifest
written; and the self-name project alone (distinct names) succeeds. -/
theorem synthesizeRun_duplicate_witness :
    ([wsSharedA].map fun q => q.tempProjectName).Nodup ∧
    wsSharedB.tempProjectName ∈ [wsSharedA].map (fun q => q.tempProjectName) ∧
    synthesizeRun semverSatisfies ([wsSharedA] ++ wsSharedB :: [])
      = Except.error ("EEXIST: " ++ wsSharedB.tempProjectName,
          [wsSharedA].map (makeTempPackageJson ([wsSharedA] ++ wsSharedB :: []) semverSatisfies)) ∧
    ([selfNameProj].map fun q => q.tempProjectName).Nodup ∧
    runSucceeded (synthesizeRun semverSatisfies [selfNameProj]) = true := by
  refine ⟨by decide, by decide, ?_, by decide, ?_⟩
  · exact (synthesizeRun_duplicate_behavior semverSatisfies).1 [wsSharedA] wsSharedB []
      (by decide) (by decide)
  · exact ((synthesizeRun_duplicate_behavior semverSatisfies).2 [selfNameProj]
      (by decide)).1

/-- Claim C4 counterexample: with the unparseable specifier `not semver`
on workspace package `utils`, classification degrades to an external
dependency without raising, but no warning is recorded anywhere — the
classification loop has no warning channel, refuting the claimed warning. -/
theorem malformed_specifier_no_warning_recorded :
    parseRange "not semver" = none ∧
    (makeTempPackageJson [appProj, utilsProj] semverSatisfies appProj).dependencies
      = [("utils", "not semver")] ∧
    (makeTempPackageJson [appProj, utilsProj] semverSatisfies appProj).rushDependencies
      = none ∧
    classificationWarnings [appProj, utilsProj] appProj semverSatisfies = [] := by decide

/-- Claim C4 (amended): a pair with a malformed (unparseable) version
specifier never aborts classification: the total function classifies it as
an external registry dependency (malformed is treated as non-satisfying),
and no warning is recorded. -/
theorem malformed_specifier_classified_external_no_warning
    (projects : List RushConfigProject) (rushProject : RushConfigProject)
    (deps : List (String × String)) (rush : Option (List (String × String)))
    (n v : String) (h : parseRange v = none) :
    classifyStep projects rushProject semverSatisfies (deps, rush) (n, v)
      = (upsert deps n v, rush) ∧
    classificationWarnings projects rushProject semverSatisfies = [] := by
  refine ⟨?_, rfl⟩
  apply classifyStep_not_local
  unfold isLocalLink
  cases hfind : getProjectByName projects (n, v).1 with
  | none => rfl
  | some lp => simp [semverSatisfies, h]

/-- Claim C4 witness at a concrete input: `utils` exists in the workspace
and the specifier `not semver` is malformed; the pair goes to
`dependencies` and the warning list is empty. -/
theorem malformed_specifier_witness :
    parseRange "not semver" = none ∧
    classifyStep [utilsProj] appProj semverSatisfies ([], none) ("utils", "not semver")
      = ([("utils", "not semver")], none) ∧
    classificationWarnings [utilsProj] appProj semverSatisfies = [] := by
  refine ⟨by decide, ?_, ?_⟩
  · exact (malformed_specifier_classified_external_no_warning [utilsProj] appProj
      [] none "utils" "not semver" (by decide)).1
  · exact (malformed_specifier_classified_external_no_warning [utilsProj] appProj
      [] none "utils" "not semver" (by decide)).2

/-- Claim C5: when the pair's name matches a workspace project but is
listed in the project's `cyclicDependencyProjects`, the loop records it in
`dependencies` (external) with its specifier and leaves `rushDependencies`
unchanged, for every version-compatibility function whatsoever. -/
theorem cyclic_exemption_forces_external
    (projects : List RushConfigProject) (rushProject localProject : RushConfigProject)
    (satisfies : String → String → Bool)
    (deps : List (String × String)) (rush : Option (List (String × String)))
    (n v : String)
    (hfind : getProjectByName projects n = some localProject)
    (hcyc : rushProject.cyclicDependencyProjects.contains n = true) :
    classifyStep projects rushProject satisfies (deps, rush) (n, v)
      = (upsert deps n v, rush) ∧
    (n, v) ∈ upsert deps n v := by
  have hmem : n ∈ rushProject.cyclicDependencyProjects := by simpa using hcyc
  refine ⟨?_, upsert_mem deps n v⟩
  unfold classifyStep
  simp [hfind, hmem]

/-- Claim C5 witness (Scenario D): project `a` lists `b` in its cyclic
exemptions; though `b` is a workspace project at a satisfying version, the
pair is recorded as an external dependency. -/
theorem cyclic_exemption_witness :
    getProjectByName [aProj, bProj] "b" = some bProj ∧
    aProj.cyclicDependencyProjects.contains "b" = true ∧
    semverSatisfies bProj.packageJson.version "^1.0.0" = true ∧
    classifyStep [aProj, bProj] aProj semverSatisfies ([], none) ("b", "^1.0.0")
      = ([("b", "^1.0.0")], none) := by
  refine ⟨by decide, by decide, by decide, ?_⟩
  exact (cyclic_exemption_forces_external [aProj, bProj] aProj bProj semverSatisfies
    [] none "b" "^1.0.0" (by decide) (by decide)).1

/-- Claim C6: when the pair's name matches a workspace project, is not
cyclically exempted, and the local version satisfies the specifier, the
loop records the pair in `rushDependencies` with its specifier and leaves
`dependencies` untouched. -/
theorem satisfied_local_project_yields_local_link
    (projects : List RushConfigProject) (rushProject localProject : RushConfigProject)
    (satisfies : String → String → Bool)
    (deps : List (String × String)) (rush : Option (List (String × String)))
    (n v : String)
    (hfind : getProjectByName projects n = some localProject)
    (hcyc : rushProject.cyclicDependencyProjects.contains n = false)
    (hsat : satisfies localProject.packageJson.version v = true) :
    classifyStep projects rushProject satisfies (deps, rush) (n, v)
      = (deps, some (upsert (rush.getD []) n v)) ∧
    (n, v) ∈ upsert (rush.getD []) n v := by
  have hmem : n ∉ rushProject.cyclicDependencyProjects := by simpa using hcyc
  refine ⟨?_, upsert_mem _ n v⟩
  unfold classifyStep
  simp [hfind, hmem, hsat]

/-- Claim C6 witness (Scenario A): `simple-web` declares `utils@^1.0.0`
and the workspace holds utils 1.2.0; the pair is locally linked. -/
theorem satisfied_local_project_witness :
    getProjectByName [simpleWebProj, utilsProj] "utils" = some utilsProj ∧
    simpleWebProj.cyclicDependencyProjects.contains "utils" = false ∧
    semverSatisfies utilsProj.packageJson.version "^1.0.0" = true ∧
    classifyStep [simpleWebProj, utilsProj] simpleWebProj semverSatisfies ([], none)
      ("utils", "^1.0.0") = ([], some [("utils", "^1.0.0")]) := by
  refine ⟨by decide, by decide, by decide, ?_⟩
  exact (satisfied_local_project_yields_local_link [simpleWebProj, utilsProj]
    simpleWebProj utilsProj semverSatisfies [] none "utils" "^1.0.0"
    (by decide) (by decide) (by decide)).1

/-- Claim C7: when the pair's name matches no workspace project, the loop
records the pair in `dependencies` (external) with its original specifier
and leaves `rushDependencies` unchanged. -/
theorem absent_name_yields_external
    (projects : List RushConfigProject) (rushProject : RushConfigProject)
    (satisfies : String → String → Bool)
    (deps : List (String × String)) (rush : Option (List (String × String)))
    (n v : String)
    (hfind : getProjectByName projects n = none) :
    classifyStep projects rushProject satisfies (deps, rush) (n, v)
      = (upsert deps n v, rush) ∧
    (n, v) ∈ upsert deps n v := by
  refine ⟨?_, upsert_mem deps n v⟩
  unfold classifyStep
  simp [hfind]

/-- Claim C7 witness: `lodash` is not a workspace project, so its pair is
recorded as an external dependency with its original specifier. -/
theorem absent_name_witness :
    getProjectByName [simpleWebProj, utilsProj] "lodash" = none ∧
    classifyStep [simpleWebProj, utilsProj] simpleWebProj semverSatisfies ([], none)
      ("lodash", "^4.0.0") = ([("lodash", "^4.0.0")], none) := by
  refine ⟨by decide, ?_⟩
  exact (absent_name_yields_external [simpleWebProj, utilsProj] simpleWebProj
    semverSatisfies [] none "lodash" "^4.0.0" (by decide)).1

/-- Claim C8: synthesis is deterministic — two runs on the same project
sequence produce the same manifests and byte-identical serializations (the
synthesis core is a pure function of its input). -/
theorem synthesize_deterministic
    (satisfies : String → String → Bool) (projects : List RushConfigProject) :
    synthesize satisfies projects = synthesize satisfies projects ∧
    serializeSynthesis satisfies projects = serializeSynthesis satisfies projects :=
  ⟨rfl, rfl⟩

/-- Claim C9 counterexample: a project whose `optionalDependencies` field
is present but empty still gets the field copied into its synthetic
manifest (the source tests presence, not non-emptiness), refuting
"present only if non-empty". -/
theorem empty_optional_deps_field_still_present :
    emptyOptProj.packageJson.optionalDependencies = some [] ∧
    (makeTempPackageJson [emptyOptProj] semverSatisfies emptyOptProj).optionalDependencies
      = some [] := by decide

/-- Claim C9 (amended): the synthetic manifest's `optionalDependencies` is
a verbatim copy of the source project's field — present exactly when the
source field is present (even when the mapping is empty) — and optional
dependencies are never run through classification (only `devDependencies`
and `dependencies` feed the merged pair list). -/
theorem optional_deps_copied_verbatim
    (projects : List RushConfigProject) (satisfies : String → String → Bool)
    (rushProject : RushConfigProject) :
    (makeTempPackageJson projects satisfies rushProject).optionalDependencies
      = rushProject.packageJson.optionalDependencies ∧
    mergePairs rushProject.packageJson
      = rushProject.packageJson.devDependencies.getD []
        ++ rushProject.packageJson.dependencies.getD [] :=
  ⟨rfl, rfl⟩

/-- Claim C10: when no merged pair of a project classifies as a local
link, the synthesized manifest's `rushDependencies` field is absent
(`none`, not an empty mapping) — the field is only created by the first
local-link decision. -/
theorem no_local_link_gives_no_rush_dependencies_field
    (projects : List RushConfigProject) (rushProject : RushConfigProject)
    (satisfies : String → String → Bool)
    (h : ∀ pair ∈ mergePairs rushProject.packageJson,
      isLocalLink projects rushProject satisfies pair = false) :
    (makeTempPackageJson projects satisfies rushProject).rushDependencies = none := by
  unfold makeTempPackageJson
  exact foldl_classify_snd_none projects rushProject satisfies _ [] h

/-- Claim C10 witness: `site` depends only on packages absent from the
workspace, so its synthetic manifest has no `rushDependencies` field. -/
theorem no_local_link_witness :
    (∀ pair ∈ mergePairs siteProj.packageJson,
      isLocalLink [siteProj, utilsProj] siteProj semverSatisfies pair = false) ∧
    (makeTempPackageJson [siteProj, utilsProj] semverSatisfies siteProj).rushDependencies
      = none := by
  refine ⟨by decide, ?_⟩
  exact no_local_link_gives_no_rush_dependencies_field [siteProj, utilsProj] siteProj
    semverSatisfies (by decide)
